import Mathlib

/-
Verification of the nanostores-storage synchronization engine.

The development shallowly embeds the core of the repository:
  - JS string records (`Record<string, string>`) as insertion-ordered
    association lists with unique keys;
  - `shallowEqual` (src/utils/shallow-equal.ts);
  - the storage-adapter backend state and its seven-operation contract
    (src/types.ts, src/adapters/memory-storage.ts), with an explicit
    `getThrows` flag modelling adapters whose point read throws;
  - the fallback-chain resolution and the single-key engine
    (src/create-storage-store.ts);
  - the whole-backend values engine (src/create-storage-values-store.ts);
  - the listener start/stop state machines of both engines.

Mutating adapter calls are recorded in an explicit event trace so that
frame properties ("no adapter.set was invoked") are stated as facts about
the trace rather than by omission.
-/

namespace NanostoresStorage

/-! ## JS records -/

/-- A JS `Record<string, string>`: an insertion-ordered association list.
The engine's operations keep keys unique, mirroring JS object semantics. -/
abbrev JsRecord := List (String × String)

/-- Keys of a record, in insertion order (JS `Object.keys`). -/
def recordKeys (r : JsRecord) : List String := r.map Prod.fst

/-- Property read `r[k]`, as an option: `none` models an absent key. -/
def recordLookup : JsRecord → String → Option String
  | [], _ => none
  | (k2, v) :: rest, k => if k2 = k then some v else recordLookup rest k

/-- JS spread-with-override `{...r, [k]: v}`: an existing key is updated in
place (keeping its position), a new key is appended at the end. -/
def recordInsert : JsRecord → String → String → JsRecord
  | [], k, v => [(k, v)]
  | (k2, v2) :: rest, k, v =>
    if k2 = k then (k, v) :: rest else (k2, v2) :: recordInsert rest k v

/-- JS `delete r[k]` (applied to a copy of the record). -/
def recordDeleteKey : JsRecord → String → JsRecord
  | [], _ => []
  | (k2, v2) :: rest, k =>
    if k2 = k then recordDeleteKey rest k else (k2, v2) :: recordDeleteKey rest k

/-- JS spread merge `{...r, ...m}`: every entry of `m` overrides `r`. -/
def recordMerge (r m : JsRecord) : JsRecord :=
  m.foldl (fun acc p => recordInsert acc p.1 p.2) r

/-- Embeds `shallowEqual` from src/utils/shallow-equal.ts: same number of
keys, and every key of `a` maps to an identical string in `b`. -/
def shallowEqual (a b : JsRecord) : Bool :=
  if (recordKeys a).length ≠ (recordKeys b).length then false
  else (recordKeys a).all fun k => recordLookup a k == recordLookup b k

/-! ## Adapter backend model -/

/-- Result of a point read `adapter.get(key)`: a value or `null`, or a
thrown exception (`thrown`), which the fallback chain must absorb. -/
inductive GetResult where
  | ok (value : Option String)
  | thrown
deriving DecidableEq, Repr

/-- Backend state behind a storage adapter: its key-value content, plus a
flag for adapters whose point read throws. Writes are modelled as always
succeeding, matching the built-in adapters, which catch their own write
failures internally (src/adapters/web-storage, memory-storage). -/
structure AdapterState where
  data : JsRecord
  getThrows : Bool
deriving DecidableEq, Repr

/-- Point read `adapter.get(key)`: throws when the adapter is broken,
otherwise returns the stored value or `null`. -/
def adapterGet (a : AdapterState) (key : String) : GetResult :=
  if a.getThrows then GetResult.thrown else GetResult.ok (recordLookup a.data key)

/-- Point write `adapter.set(key, value)`. -/
def adapterSet (key value : String) (a : AdapterState) : AdapterState :=
  { a with data := recordInsert a.data key value }

/-- Point delete `adapter.remove(key)`. -/
def adapterRemove (key : String) (a : AdapterState) : AdapterState :=
  { a with data := recordDeleteKey a.data key }

/-- Bulk read `adapter.getAll()`. -/
def adapterGetAll (a : AdapterState) : JsRecord := a.data

/-- Bulk replace `adapter.setAll(values)`. -/
def adapterSetAll (values : JsRecord) (a : AdapterState) : AdapterState :=
  { a with data := values }

/-- Trace of mutating backend calls and container notifications issued by
an engine operation. Point/bulk reads are pure in this model and leave no
trace entry. -/
inductive StorageEvent where
  | setCall (key value : String)
  | removeCall (key : String)
  | setAllCall (values : JsRecord)
  | notifyObservers
deriving DecidableEq, Repr

/-! ## Adapter chain resolution (src/create-storage-store.ts lines 17-58) -/

/-- Embeds the adapter-config type of src/types.ts: `AdapterConfig` is
either a single adapter or a `NonEmptyAdapterArray`
(`[StorageAdapter, ...Array<StorageAdapter>]`, head plus tail), so a
zero-element chain is not representable at the construction boundary. -/
inductive AdapterConfig where
  | single (a : AdapterState)
  | chain (head : AdapterState) (tail : List AdapterState)
deriving DecidableEq, Repr

/-- Embeds `normalizeAdapters`: a single adapter becomes a one-element
chain, an array is used as-is. -/
def normalizeAdapters : AdapterConfig → List AdapterState
  | AdapterConfig.single a => [a]
  | AdapterConfig.chain head tail => head :: tail

/-- Embeds `readFromAdapters`: scan the chain in order, return the first
non-null read; a `try/catch` around each `get` skips throwing adapters;
`null` when the chain is exhausted. The return type `Option String` (no
exception case) reflects that the loop never lets an exception escape. -/
def readFromAdapters : List AdapterState → String → Option String
  | [], _ => none
  | adapter :: rest, key =>
    match adapterGet adapter key with
    | GetResult.ok (some value) => some value
    | GetResult.ok none => readFromAdapters rest key
    | GetResult.thrown => readFromAdapters rest key

/-- Embeds `writeToAdapters`: `adapter.set(key, value)` on every adapter. -/
def writeToAdapters (adapters : List AdapterState) (key value : String) : List AdapterState :=
  adapters.map (adapterSet key value)

/-- Embeds `removeFromAdapters`: `adapter.remove(key)` on every adapter. -/
def removeFromAdapters (adapters : List AdapterState) (key : String) : List AdapterState :=
  adapters.map (adapterRemove key)

/-! ## Key sync engine (src/create-storage-store.ts) -/

/-- State owned by one key sync engine: the backing adapter chain and the
internal container (`$internalStore`), whose `none` models the `null`
value. Listener state is modelled separately (see the listener machines
below); it does not interact with the read/write path. -/
structure KeyEngineState where
  adapters : List AdapterState
  container : Option String
deriving DecidableEq, Repr

/-- Embeds the `$internalStore.listen` mirror callback (lines 183-198):
skip when `isInternalUpdate` is set; otherwise re-read the chain and
broadcast the committed value to every adapter only when it is a string
that differs from what the chain currently reports. Returns the updated
chain and the `set` calls issued. -/
def mirrorToStorage (key : String) (value : Option String) (isInternalUpdate : Bool)
    (adapters : List AdapterState) : List AdapterState × List StorageEvent :=
  if isInternalUpdate then (adapters, [])
  else
    let storageValue := readFromAdapters adapters key
    match value with
    | none => (adapters, [])
    | some v =>
      if some v ≠ storageValue then
        (writeToAdapters adapters key v, adapters.map fun _ => StorageEvent.setCall key v)
      else (adapters, [])

/-- Embeds `createStorageStore` construction (lines 116-131): read through
the chain once and seed the container with that value, falling back to
`defaultValue` only when the read was `null` (`currentValue ?? defaultValue`).
The mirror observer is registered with `listen`, which skips the immediate
replay, so construction performs no mirror invocation; the `listen` option
only starts the listener machine and is modelled there. -/
def createStorageStore (config : AdapterConfig) (key : String)
    (defaultValue : Option String) : KeyEngineState × List StorageEvent :=
  let adapters := normalizeAdapters config
  let currentValue := readFromAdapters adapters key
  ({ adapters := adapters
     container := match currentValue with
       | some v => some v
       | none => defaultValue }, [])

namespace KeyStore

/-- Embeds `set(value)` (lines 150-152) together with the container commit
semantics: the reactive atom commits and notifies only when the new value
differs from the current one, and the mirror callback then runs with
`isInternalUpdate = false`. -/
def set (key v : String) (s : KeyEngineState) : KeyEngineState × List StorageEvent :=
  if s.container = some v then (s, [])
  else
    let (adapters2, evs) := mirrorToStorage key (some v) false s.adapters
    ({ adapters := adapters2, container := some v }, StorageEvent.notifyObservers :: evs)

/-- Embeds `remove()` (lines 157-165): `removeFromAdapters` on the chain,
then a `null` commit under `isInternalUpdate`, so the mirror callback
returns without writing. The atom skips the notification when the
container already holds `null`. -/
def remove (key : String) (s : KeyEngineState) : KeyEngineState × List StorageEvent :=
  let adapters1 := removeFromAdapters s.adapters key
  let removeEvs := s.adapters.map fun _ => StorageEvent.removeCall key
  if s.container = none then
    ({ adapters := adapters1, container := none }, removeEvs)
  else
    let (adapters2, evs) := mirrorToStorage key none true adapters1
    ({ adapters := adapters2, container := none },
      removeEvs ++ StorageEvent.notifyObservers :: evs)

/-- Embeds `sync()` (lines 171-181): force a chain read; return without
any mutation or notification when the read equals the current container
value; otherwise commit it under `isInternalUpdate` so the mirror callback
does not write it back. `defaultValue` is local to construction and does
not occur here, exactly as in the source. -/
def sync (key : String) (s : KeyEngineState) : KeyEngineState × List StorageEvent :=
  let newValue := readFromAdapters s.adapters key
  if newValue = s.container then (s, [])
  else
    let (adapters2, evs) := mirrorToStorage key newValue true s.adapters
    ({ adapters := adapters2, container := newValue }, StorageEvent.notifyObservers :: evs)

end KeyStore

/-! ## Values sync engine (src/create-storage-values-store.ts) -/

/-- A JS value as observed by `get(key)`: `undefined` (absent property),
`null`, or a string. Distinguishing `undef` from `nullVal` lets the model
show that absence is surfaced as `null`, never as `undefined`. -/
inductive JsValue where
  | undef
  | nullVal
  | str (s : String)
deriving DecidableEq, Repr

/-- JS property access `r[k]`: `undefined` when the key is absent. -/
def jsIndex (r : JsRecord) (k : String) : JsValue :=
  match recordLookup r k with
  | some v => JsValue.str v
  | none => JsValue.undef

/-- JS nullish coalescing `a ?? b`: `b` when `a` is `undefined` or `null`,
otherwise `a`. -/
def jsNullish (a b : JsValue) : JsValue :=
  match a with
  | JsValue.undef => b
  | JsValue.nullVal => b
  | JsValue.str s => JsValue.str s

/-- State owned by one values sync engine: its single backing adapter and
the internal snapshot container. Listener state is modelled separately. -/
structure ValuesEngineState where
  adapter : AdapterState
  container : JsRecord
deriving DecidableEq, Repr

/-- Embeds the `$internalStore.subscribe` mirror callback (lines 89-94 of
src/create-storage-values-store.ts): re-read `adapter.getAll()`, skip the
bulk write when `shallowEqual` holds, otherwise `adapter.setAll(values)`. -/
def mirrorValuesToStorage (values : JsRecord) (a : AdapterState) :
    AdapterState × List StorageEvent :=
  let storageValues := adapterGetAll a
  if shallowEqual values storageValues then (a, [])
  else (adapterSetAll values a, [StorageEvent.setAllCall values])

/-- Embeds `createStorageValuesStore` construction: seed the container
with `adapter.getAll()`; `subscribe` replays immediately, so the mirror
callback runs once at construction with the seeded snapshot. -/
def createStorageValuesStore (a : AdapterState) : ValuesEngineState × List StorageEvent :=
  let snapshot := adapterGetAll a
  let (a2, evs) := mirrorValuesToStorage snapshot a
  ({ adapter := a2, container := snapshot }, evs)

/-- Argument of `update`: a partial mapping to shallow-merge, or a
function producing the full next snapshot. -/
inductive UpdateArg where
  | mapping (m : JsRecord)
  | fn (f : JsRecord → JsRecord)

/-- Argument of `remove`: one key or an array of keys. -/
inductive KeyOrKeys where
  | single (k : String)
  | many (ks : List String)
deriving DecidableEq, Repr

/-- Normalization `Array.isArray(keyOrKeys) ? keyOrKeys : [keyOrKeys]`. -/
def keyOrKeysList : KeyOrKeys → List String
  | KeyOrKeys.single k => [k]
  | KeyOrKeys.many ks => ks

namespace ValuesStore

/-- Embeds `updateValue` (lines 99-102): the equality guard returns
without touching the container when `shallowEqual(newValue, current)`;
otherwise the container commits the fresh snapshot, observers are
notified, and the mirror callback runs. -/
def updateValue (newValue : JsRecord) (s : ValuesEngineState) :
    ValuesEngineState × List StorageEvent :=
  if shallowEqual newValue s.container then (s, [])
  else
    let (a2, evs) := mirrorValuesToStorage newValue s.adapter
    ({ adapter := a2, container := newValue }, StorageEvent.notifyObservers :: evs)

/-- Embeds `get()`: the full current snapshot. -/
def get (s : ValuesEngineState) : JsRecord := s.container

/-- Embeds the `get(key)` overload: `$internalStore.get()[key] ?? null`. -/
def getKey (s : ValuesEngineState) (k : String) : JsValue :=
  jsNullish (jsIndex s.container k) JsValue.nullVal

/-- Embeds `set(key, value)`: `{...current, [key]: value}` through the
equality guard. -/
def set (k v : String) (s : ValuesEngineState) : ValuesEngineState × List StorageEvent :=
  updateValue (recordInsert s.container k v) s

/-- Embeds `update`: shallow merge for a mapping argument, full
replacement by the function's result for a function argument. -/
def update (arg : UpdateArg) (s : ValuesEngineState) : ValuesEngineState × List StorageEvent :=
  updateValue
    (match arg with
     | UpdateArg.mapping m => recordMerge s.container m
     | UpdateArg.fn f => f s.container) s

/-- Embeds `remove(keyOrKeys)`: delete the keys from a shallow copy of the
snapshot, through the equality guard. -/
def remove (kk : KeyOrKeys) (s : ValuesEngineState) : ValuesEngineState × List StorageEvent :=
  updateValue ((keyOrKeysList kk).foldl recordDeleteKey s.container) s

/-- Embeds `clear()`: commit the empty snapshot through the guard. -/
def clear (s : ValuesEngineState) : ValuesEngineState × List StorageEvent :=
  updateValue [] s

/-- Embeds `sync()`: re-read `adapter.getAll()` through the guard. -/
def sync (s : ValuesEngineState) : ValuesEngineState × List StorageEvent :=
  updateValue (adapterGetAll s.adapter) s

end ValuesStore

/-! ## Listener state machines

Both engines expose `listener.on/off/toggle` over an observable boolean
`$on`. The key engine keeps an array `unsubscribeFns` of active backend
subscriptions (its length is `unsubCount`); the values engine keeps a
single nullable `unsubscribe` slot (`hasUnsub`). -/

/-- An invocation of the listener API. -/
inductive ListenerOp where
  | on
  | off
  | toggle
deriving DecidableEq, Repr

/-- Listener state of the key engine: the `$on` atom and the number of
entries of `unsubscribeFns`. -/
structure KeyListenerState where
  isOn : Bool
  unsubCount : Nat
deriving DecidableEq, Repr

/-- Embeds the key engine's `on()` (lines 204-216): return when already
on, otherwise subscribe to the first adapter, push the unsubscribe thunk,
and set `$on`. -/
def keyListenerOn (s : KeyListenerState) : KeyListenerState :=
  if s.isOn then s else { isOn := true, unsubCount := s.unsubCount + 1 }

/-- Embeds the key engine's `off()` (lines 221-227): call every stored
unsubscribe thunk, empty the array, clear `$on`. -/
def keyListenerOff (_s : KeyListenerState) : KeyListenerState :=
  { isOn := false, unsubCount := 0 }

/-- Embeds the key engine's `toggle()`. -/
def keyListenerToggle (s : KeyListenerState) : KeyListenerState :=
  if s.isOn then keyListenerOff s else keyListenerOn s

/-- One listener API call on the key engine. -/
def keyListenerStep (s : KeyListenerState) : ListenerOp → KeyListenerState
  | ListenerOp.on => keyListenerOn s
  | ListenerOp.off => keyListenerOff s
  | ListenerOp.toggle => keyListenerToggle s

/-- Runs a sequence of listener API calls from the initial state
(`$on = false`, no subscriptions). -/
def keyListenerRun (ops : List ListenerOp) : KeyListenerState :=
  ops.foldl keyListenerStep { isOn := false, unsubCount := 0 }

/-- Listener state of the values engine: the `$on` atom and whether the
`unsubscribe` slot is non-null. -/
structure ValuesListenerState where
  isOn : Bool
  hasUnsub : Bool
deriving DecidableEq, Repr

/-- Number of active backend subscriptions held by the values engine. -/
def valuesSubCount (s : ValuesListenerState) : Nat :=
  if s.hasUnsub then 1 else 0

/-- Embeds the values engine's `on()` (lines 166-174): return when
already on, otherwise subscribe and store the unsubscribe thunk. -/
def valuesListenerOn (s : ValuesListenerState) : ValuesListenerState :=
  if s.isOn then s else { isOn := true, hasUnsub := true }

/-- Embeds the values engine's `off()` (lines 179-185): call and null the
stored unsubscribe thunk if present, clear `$on`. -/
def valuesListenerOff (_s : ValuesListenerState) : ValuesListenerState :=
  { isOn := false, hasUnsub := false }

/-- Embeds the values engine's `toggle()`. -/
def valuesListenerToggle (s : ValuesListenerState) : ValuesListenerState :=
  if s.isOn then valuesListenerOff s else valuesListenerOn s

/-- One listener API call on the values engine. -/
def valuesListenerStep (s : ValuesListenerState) : ListenerOp → ValuesListenerState
  | ListenerOp.on => valuesListenerOn s
  | ListenerOp.off => valuesListenerOff s
  | ListenerOp.toggle => valuesListenerToggle s

/-- Runs a sequence of listener API calls from the initial state. -/
def valuesListenerRun (ops : List ListenerOp) : ValuesListenerState :=
  ops.foldl valuesListenerStep { isOn := false, hasUnsub := false }

/-! ## Record lemmas -/

theorem recordLookup_insert_self (r : JsRecord) (k v : String) :
    recordLookup (recordInsert r k v) k = some v := by
  induction r with
  | nil => simp [recordInsert, recordLookup]
  | cons p rest ih =>
    obtain ⟨k2, v2⟩ := p
    by_cases h : k2 = k
    · simp [recordInsert, recordLookup, h]
    · simp [recordInsert, recordLookup, h, ih]

theorem recordInsert_of_lookup (r : JsRecord) (k v : String)
    (h : recordLookup r k = some v) : recordInsert r k v = r := by
  induction r with
  | nil => simp [recordLookup] at h
  | cons p rest ih =>
    obtain ⟨k2, v2⟩ := p
    by_cases hk : k2 = k
    · subst hk
      simp [recordLookup] at h
      simp [recordInsert, h]
    · simp [recordLookup, hk] at h
      simp [recordInsert, hk, ih h]

theorem recordDeleteKey_of_lookup_none (r : JsRecord) (k : String)
    (h : recordLookup r k = none) : recordDeleteKey r k = r := by
  induction r with
  | nil => simp [recordDeleteKey]
  | cons p rest ih =>
    obtain ⟨k2, v2⟩ := p
    by_cases hk : k2 = k
    · subst hk; simp [recordLookup] at h
    · simp [recordLookup, hk] at h
      simp [recordDeleteKey, hk, ih h]

theorem shallowEqual_self (r : JsRecord) : shallowEqual r r = true := by
  simp [shallowEqual, List.all_eq_true]

theorem recordMerge_of_contained (m r : JsRecord)
    (h : ∀ p ∈ m, recordLookup r p.1 = some p.2) : recordMerge r m = r := by
  induction m generalizing r with
  | nil => rfl
  | cons p rest ih =>
    have hr : recordInsert r p.1 p.2 = r :=
      recordInsert_of_lookup r p.1 p.2 (h p (List.mem_cons_self p rest))
    have step : recordMerge r (p :: rest) = recordMerge (recordInsert r p.1 p.2) rest := rfl
    rw [step, hr]
    exact ih r fun q hq => h q (List.mem_cons_of_mem p hq)

theorem foldl_recordDeleteKey_of_none (ks : List String) (r : JsRecord)
    (h : ∀ k ∈ ks, recordLookup r k = none) : ks.foldl recordDeleteKey r = r := by
  induction ks generalizing r with
  | nil => rfl
  | cons k rest ih =>
    have hr : recordDeleteKey r k = r :=
      recordDeleteKey_of_lookup_none r k (h k (List.mem_cons_self k rest))
    have step : (k :: rest).foldl recordDeleteKey r = rest.foldl recordDeleteKey (recordDeleteKey r k) := rfl
    rw [step, hr]
    exact ih r fun q hq => h q (List.mem_cons_of_mem k hq)

/-! ## Claim theorems -/

/-- C2: the chain read returns the value of the first adapter, in chain
order, whose `get(key)` returns non-null without throwing; adapters whose
`get` throws are skipped; and when every adapter yields null or throws the
read returns null — by the total return type `Option String`, no exception
ever reaches the caller. -/
theorem c2_read_through_first_nonnull :
    ∀ (adapters : List AdapterState) (key : String),
      (∀ v, readFromAdapters adapters key = some v →
        ∃ pre a post, adapters = pre ++ a :: post ∧
          adapterGet a key = GetResult.ok (some v) ∧
          ∀ b ∈ pre, adapterGet b key = GetResult.thrown ∨ adapterGet b key = GetResult.ok none) ∧
      (readFromAdapters adapters key = none →
        ∀ a ∈ adapters, adapterGet a key = GetResult.thrown ∨ adapterGet a key = GetResult.ok none) := by
  intro adapters key
  induction adapters with
  | nil =>
    refine ⟨?_, ?_⟩
    · intro v h; simp [readFromAdapters] at h
    · intro _ a ha; simp at ha
  | cons a0 rest ih =>
    refine ⟨?_, ?_⟩
    · intro v h
      cases hg : adapterGet a0 key with
      | ok ov =>
        cases ov with
        | some w =>
          simp [readFromAdapters, hg] at h
          subst h
          exact ⟨[], a0, rest, rfl, hg, by intro b hb; simp at hb⟩
        | none =>
          simp [readFromAdapters, hg] at h
          obtain ⟨pre, a, post, heq, hga, hpre⟩ := ih.1 v h
          refine ⟨a0 :: pre, a, post, by rw [heq]; rfl, hga, ?_⟩
          intro b hb
          rcases List.mem_cons.mp hb with hb0 | hbp
          · exact Or.inr (hb0 ▸ hg)
          · exact hpre b hbp
      | thrown =>
        simp [readFromAdapters, hg] at h
        obtain ⟨pre, a, post, heq, hga, hpre⟩ := ih.1 v h
        refine ⟨a0 :: pre, a, post, by rw [heq]; rfl, hga, ?_⟩
        intro b hb
        rcases List.mem_cons.mp hb with hb0 | hbp
        · exact Or.inl (hb0 ▸ hg)
        · exact hpre b hbp
    · intro h a ha
      cases hg : adapterGet a0 key with
      | ok ov =>
        cases ov with
        | some w => simp [readFromAdapters, hg] at h
        | none =>
          simp [readFromAdapters, hg] at h
          rcases List.mem_cons.mp ha with ha0 | hap
          · exact Or.inr (ha0 ▸ hg)
          · exact ih.2 h a hap
      | thrown =>
        simp [readFromAdapters, hg] at h
        rcases List.mem_cons.mp ha with ha0 | hap
        · exact Or.inl (ha0 ▸ hg)
        · exact ih.2 h a hap

/-- Witness for C2 at the all-fail chain `[throwing adapter, empty
adapter]`: the read evaluates to null and the theorem reports that the
(concrete) first adapter either threw or read null. -/
theorem c2_read_through_witness :
    adapterGet ⟨[("k", "a")], true⟩ "k" = GetResult.thrown ∨
      adapterGet ⟨[("k", "a")], true⟩ "k" = GetResult.ok none :=
  (c2_read_through_first_nonnull [⟨[("k", "a")], true⟩, ⟨[], false⟩] "k").2 (by decide)
    ⟨[("k", "a")], true⟩ (by decide)

/-- C3: the adapter-config type admits no zero-element chain — every
representable configuration normalizes to a chain of at least one adapter,
so the engine's first use (in particular `listener.on`'s subscription to
element 0) always has a head adapter. The zero-adapter case is rejected
statically, at the construction boundary, by the `NonEmptyAdapterArray`
type. -/
theorem c3_nonempty_chain_construction :
    ∀ cfg : AdapterConfig,
      0 < (normalizeAdapters cfg).length ∧
      ∃ head tail, normalizeAdapters cfg = head :: tail := by
  intro cfg
  cases cfg with
  | single a => exact ⟨by simp [normalizeAdapters], a, [], rfl⟩
  | chain head tail => exact ⟨by simp [normalizeAdapters], head, tail, rfl⟩

/-- C4: construction emits no mutating backend call and leaves every
adapter exactly as it was; the container is seeded with the chain read
when it is non-null and with `defaultValue` exactly when the read is null —
`defaultValue` is never persisted. -/
theorem c4_construction_seeds_without_writes :
    ∀ (cfg : AdapterConfig) (key : String) (dv : Option String),
      (createStorageStore cfg key dv).2 = [] ∧
      (createStorageStore cfg key dv).1.adapters = normalizeAdapters cfg ∧
      (∀ v, readFromAdapters (normalizeAdapters cfg) key = some v →
        (createStorageStore cfg key dv).1.container = some v) ∧
      (readFromAdapters (normalizeAdapters cfg) key = none →
        (createStorageStore cfg key dv).1.container = dv) := by
  intro cfg key dv
  refine ⟨rfl, rfl, ?_, ?_⟩
  · intro v h; simp [createStorageStore, h]
  · intro h; simp [createStorageStore, h]

/-- Witness for C4 at the concrete scenario of the spec: a two-adapter
chain with empty backends and `defaultValue = "x"` yields current value
`"x"` while no mutating backend call is emitted. -/
theorem c4_construction_witness :
    (createStorageStore (AdapterConfig.chain ⟨[], false⟩ [⟨[], false⟩]) "k"
      (some "x")).1.container = some "x" ∧
    (createStorageStore (AdapterConfig.chain ⟨[], false⟩ [⟨[], false⟩]) "k" (some "x")).2 = [] :=
  ⟨(c4_construction_seeds_without_writes (AdapterConfig.chain ⟨[], false⟩ [⟨[], false⟩]) "k"
      (some "x")).2.2.2 (by decide),
   (c4_construction_seeds_without_writes (AdapterConfig.chain ⟨[], false⟩ [⟨[], false⟩]) "k"
      (some "x")).1⟩

/-- C5: in every state, `sync()` sets the container to exactly the chain
read's result (never `defaultValue`, which does not even occur in `sync`),
leaves every adapter untouched, and emits no mutating backend call: the
event trace is empty when the read equals the current container value and
a single observer notification otherwise. -/
theorem c5_sync_reflects_backend :
    ∀ (s : KeyEngineState) (key : String),
      (KeyStore.sync key s).1.container = readFromAdapters s.adapters key ∧
      (KeyStore.sync key s).1.adapters = s.adapters ∧
      (KeyStore.sync key s).2 =
        (if readFromAdapters s.adapters key = s.container then []
         else [StorageEvent.notifyObservers]) := by
  intro s key
  by_cases h : readFromAdapters s.adapters key = s.container
  · simp [KeyStore.sync, h]
  · simp [KeyStore.sync, h, mirrorToStorage]

/-- C6: in every state, `remove()` invokes `adapter.remove(key)` on every
adapter of the chain and sets the container to null — regardless of any
`defaultValue` the engine was constructed with — and the event trace
contains one remove call per adapter plus at most an observer
notification, never an `adapter.set` call. -/
theorem c6_remove_broadcast_and_null :
    ∀ (s : KeyEngineState) (key : String),
      (KeyStore.remove key s).1.container = none ∧
      (KeyStore.remove key s).1.adapters = removeFromAdapters s.adapters key ∧
      (KeyStore.remove key s).2 =
        (s.adapters.map fun _ => StorageEvent.removeCall key) ++
          (if s.container = none then [] else [StorageEvent.notifyObservers]) := by
  intro s key
  by_cases h : s.container = none
  · simp [KeyStore.remove, h]
  · simp [KeyStore.remove, h, mirrorToStorage]

/-- C1 as stated is false: after `set(v)` on a chain, a later adapter can
keep a different value. Concretely, over the chain `[{k: "v"}, {k: "w"}]`
the engine seeds its container with the chain read `"v"`; `set("v")` then
commits nothing (the container already holds `"v"`) — and even when the
commit fires, the mirror observer skips the broadcast because the chain
read already reports `"v"` — so the second adapter still reports `"w"`. -/
theorem c1_write_broadcast_counterexample :
    ¬ (∀ a ∈ ((KeyStore.set "k" "v"
        (createStorageStore (AdapterConfig.chain ⟨[("k", "v")], false⟩ [⟨[("k", "w")], false⟩])
          "k" none).1).1.adapters),
        adapterGet a "k" = GetResult.ok (some "v")) := by decide

/-- C1 amended: after `set(v)`, every adapter in the chain reports `v` for
the key, provided no adapter's read throws and `v` differs both from the
container's current value and from the current chain read — that is,
whenever neither of the two redundancy guards (the container's skip of
identical commits, and the mirror observer's skip of values the chain
already reports) suppresses the broadcast. -/
theorem c1_write_broadcast_amended :
    ∀ (s : KeyEngineState) (key v : String),
      (∀ a ∈ s.adapters, a.getThrows = false) →
      s.container ≠ some v →
      readFromAdapters s.adapters key ≠ some v →
      ∀ a ∈ (KeyStore.set key v s).1.adapters,
        adapterGet a key = GetResult.ok (some v) := by
  intro s key v hok hc hr a ha
  have hvr : some v ≠ readFromAdapters s.adapters key := fun h => hr h.symm
  have hm : mirrorToStorage key (some v) false s.adapters =
      (writeToAdapters s.adapters key v, s.adapters.map fun _ => StorageEvent.setCall key v) := by
    simp [mirrorToStorage, hvr]
  have hset : KeyStore.set key v s =
      ({ adapters := writeToAdapters s.adapters key v, container := some v },
        StorageEvent.notifyObservers :: s.adapters.map fun _ => StorageEvent.setCall key v) := by
    unfold KeyStore.set
    rw [if_neg hc, hm]
  rw [hset] at ha
  simp only [writeToAdapters, List.mem_map] at ha
  obtain ⟨a0, ha0, rfl⟩ := ha
  have h0 : a0.getThrows = false := hok a0 ha0
  simp [adapterGet, adapterSet, h0, recordLookup_insert_self]

/-- Witness for the amended C1: a one-adapter chain with an empty healthy
backend and a null container; after `set("v")` the written adapter, passed
to the theorem with its membership, reports `"v"`. -/
theorem c1_write_broadcast_witness :
    adapterGet ⟨[("k", "v")], false⟩ "k" = GetResult.ok (some "v") :=
  c1_write_broadcast_amended ⟨[⟨[], false⟩], none⟩ "k" "v" (by decide) (by decide) (by decide)
    ⟨[("k", "v")], false⟩ (by decide)

/-- C7: on the values engine, `set` of an entry the snapshot already
holds, `update` with a mapping entirely contained in the snapshot,
`remove` of absent keys (single key or array), and `clear` on an empty
snapshot are each complete no-ops: the returned state is the input state
(the container is untouched) and the event trace is empty — no observer
notification beyond the initial subscribe replay and no `adapter.setAll`. -/
theorem c7_values_noop_idempotence :
    (∀ (s : ValuesEngineState) (k v : String),
      recordLookup s.container k = some v → ValuesStore.set k v s = (s, [])) ∧
    (∀ (s : ValuesEngineState) (m : JsRecord),
      (∀ p ∈ m, recordLookup s.container p.1 = some p.2) →
      ValuesStore.update (UpdateArg.mapping m) s = (s, [])) ∧
    (∀ (s : ValuesEngineState) (kk : KeyOrKeys),
      (∀ k ∈ keyOrKeysList kk, recordLookup s.container k = none) →
      ValuesStore.remove kk s = (s, [])) ∧
    (∀ s : ValuesEngineState, s.container = [] → ValuesStore.clear s = (s, [])) := by
  refine ⟨?_, ?_, ?_, ?_⟩
  · intro s k v h
    unfold ValuesStore.set ValuesStore.updateValue
    rw [recordInsert_of_lookup _ _ _ h, if_pos (shallowEqual_self _)]
  · intro s m h
    show ValuesStore.updateValue (recordMerge s.container m) s = (s, [])
    unfold ValuesStore.updateValue
    rw [recordMerge_of_contained m s.container h, if_pos (shallowEqual_self _)]
  · intro s kk h
    unfold ValuesStore.remove ValuesStore.updateValue
    rw [foldl_recordDeleteKey_of_none _ _ h, if_pos (shallowEqual_self _)]
  · intro s h
    unfold ValuesStore.clear ValuesStore.updateValue
    rw [h, if_pos (shallowEqual_self _)]

/-- Witness for C7: each of the four no-op shapes evaluated at a concrete
engine state returns the state unchanged with an empty event trace. -/
theorem c7_values_noop_witness :
    ValuesStore.set "a" "1" ⟨⟨[("a", "1")], false⟩, [("a", "1")]⟩ =
      (⟨⟨[("a", "1")], false⟩, [("a", "1")]⟩, []) ∧
    ValuesStore.update (UpdateArg.mapping [("a", "1")]) ⟨⟨[], false⟩, [("a", "1")]⟩ =
      (⟨⟨[], false⟩, [("a", "1")]⟩, []) ∧
    ValuesStore.remove (KeyOrKeys.many ["z", "q"]) ⟨⟨[], false⟩, [("a", "1")]⟩ =
      (⟨⟨[], false⟩, [("a", "1")]⟩, []) ∧
    ValuesStore.clear ⟨⟨[], false⟩, []⟩ = (⟨⟨[], false⟩, []⟩, []) :=
  ⟨c7_values_noop_idempotence.1 ⟨⟨[("a", "1")], false⟩, [("a", "1")]⟩ "a" "1" (by decide),
   c7_values_noop_idempotence.2.1 ⟨⟨[], false⟩, [("a", "1")]⟩ [("a", "1")] (by decide),
   c7_values_noop_idempotence.2.2.1 ⟨⟨[], false⟩, [("a", "1")]⟩ (KeyOrKeys.many ["z", "q"])
     (by decide),
   c7_values_noop_idempotence.2.2.2 ⟨⟨[], false⟩, []⟩ (by decide)⟩

theorem keyListenerStep_inv (s : KeyListenerState) (op : ListenerOp)
    (h : s.unsubCount = if s.isOn then 1 else 0) :
    (keyListenerStep s op).unsubCount = (if (keyListenerStep s op).isOn then 1 else 0) := by
  cases op <;> by_cases ho : s.isOn <;>
    simp_all [keyListenerStep, keyListenerOn, keyListenerOff, keyListenerToggle]

theorem valuesListenerStep_inv (s : ValuesListenerState) (op : ListenerOp)
    (h : valuesSubCount s = if s.isOn then 1 else 0) :
    valuesSubCount (valuesListenerStep s op) =
      (if (valuesListenerStep s op).isOn then 1 else 0) := by
  cases op <;> by_cases ho : s.isOn <;>
    simp_all [valuesListenerStep, valuesListenerOn, valuesListenerOff, valuesListenerToggle,
      valuesSubCount]

theorem keyListener_foldl_inv (ops : List ListenerOp) :
    ∀ s : KeyListenerState, s.unsubCount = (if s.isOn then 1 else 0) →
      (ops.foldl keyListenerStep s).unsubCount =
        (if (ops.foldl keyListenerStep s).isOn then 1 else 0) := by
  induction ops with
  | nil => intro s h; exact h
  | cons op rest ih =>
    intro s h
    exact ih (keyListenerStep s op) (keyListenerStep_inv s op h)

theorem valuesListener_foldl_inv (ops : List ListenerOp) :
    ∀ s : ValuesListenerState, valuesSubCount s = (if s.isOn then 1 else 0) →
      valuesSubCount (ops.foldl valuesListenerStep s) =
        (if (ops.foldl valuesListenerStep s).isOn then 1 else 0) := by
  induction ops with
  | nil => intro s h; exact h
  | cons op rest ih =>
    intro s h
    exact ih (valuesListenerStep s op) (valuesListenerStep_inv s op h)

/-- C8: for both engines, after any sequence of listener API calls from
the initial state, the number of active backend subscriptions is exactly 1
when `$on` is true and exactly 0 when it is false; `on` and `off` are each
idempotent on arbitrary states (repeating them changes nothing, and `off`
when not listening is a no-op rather than an error), and `on` directly
after `off` yields exactly one active subscription again, restoring
delivery of subsequent change events. -/
theorem c8_listener_idempotence :
    (∀ ops : List ListenerOp,
      (keyListenerRun ops).unsubCount = (if (keyListenerRun ops).isOn then 1 else 0)) ∧
    (∀ ops : List ListenerOp,
      valuesSubCount (valuesListenerRun ops) = (if (valuesListenerRun ops).isOn then 1 else 0)) ∧
    (∀ s : KeyListenerState, keyListenerOn (keyListenerOn s) = keyListenerOn s) ∧
    (∀ s : KeyListenerState, keyListenerOff (keyListenerOff s) = keyListenerOff s) ∧
    (∀ s : KeyListenerState, keyListenerOn (keyListenerOff s) = ⟨true, 1⟩) ∧
    (∀ s : ValuesListenerState, valuesListenerOn (valuesListenerOn s) = valuesListenerOn s) ∧
    (∀ s : ValuesListenerState, valuesListenerOff (valuesListenerOff s) = valuesListenerOff s) ∧
    (∀ s : ValuesListenerState, valuesListenerOn (valuesListenerOff s) = ⟨true, true⟩) := by
  refine ⟨?_, ?_, ?_, ?_, ?_, ?_, ?_, ?_⟩
  · intro ops
    exact keyListener_foldl_inv ops { isOn := false, unsubCount := 0 } (by simp)
  · intro ops
    exact valuesListener_foldl_inv ops { isOn := false, hasUnsub := false }
      (by simp [valuesSubCount])
  · intro s
    by_cases ho : s.isOn <;> simp [keyListenerOn, ho]
  · intro s; rfl
  · intro s; rfl
  · intro s
    by_cases ho : s.isOn <;> simp [valuesListenerOn, ho]
  · intro s; rfl
  · intro s; rfl

/-- C9: on the values engine, `get()` returns the full snapshot, and
`get(key)` returns the stored string when the key is present (the
nullish-coalescing step leaves any string, the empty string included,
untouched) and null when it is absent — the result is always null or a
string, never the undefined marker. -/
theorem c9_values_get_absence :
    ∀ (s : ValuesEngineState) (k : String),
      ValuesStore.get s = s.container ∧
      ValuesStore.getKey s k =
        (match recordLookup s.container k with
         | some v => JsValue.str v
         | none => JsValue.nullVal) ∧
      (ValuesStore.getKey s k = JsValue.nullVal ∨ ∃ v, ValuesStore.getKey s k = JsValue.str v) := by
  intro s k
  refine ⟨rfl, ?_, ?_⟩
  · cases h : recordLookup s.container k <;>
      simp [ValuesStore.getKey, jsIndex, jsNullish, h]
  · cases h : recordLookup s.container k with
    | none => exact Or.inl (by simp [ValuesStore.getKey, jsIndex, jsNullish, h])
    | some v => exact Or.inr ⟨v, by simp [ValuesStore.getKey, jsIndex, jsNullish, h]⟩

/-- C10: construction with `listen = false` performs only reads on the
backends. The key engine registers its mirror with `listen`, which skips
the immediate replay, so its construction trace is empty and the chain is
returned untouched; the values engine's `subscribe` replay compares the
seeded snapshot against a re-read of the unchanged backend, the equality
guard suppresses the bulk write, and the adapter comes out unchanged. -/
theorem c10_construction_read_only :
    ∀ (a : AdapterState) (cfg : AdapterConfig) (key : String) (dv : Option String),
      createStorageValuesStore a = ({ adapter := a, container := adapterGetAll a }, []) ∧
      (createStorageStore cfg key dv).2 = [] ∧
      (createStorageStore cfg key dv).1.adapters = normalizeAdapters cfg := by
  intro a cfg key dv
  refine ⟨?_, rfl, rfl⟩
  simp [createStorageValuesStore, mirrorValuesToStorage, shallowEqual_self]

end NanostoresStorage
